import Mathlib

/-!
Verification of the quiz application (src/Quiz_app/main.py) against its
natural-language specification.  The Python source is shallowly embedded:
dictionaries become structures, the MySQL tables become lists of row
records with explicit auto-increment counters, `random` draws become an
explicit index stream, and code that can raise returns `Except`.
-/

set_option maxHeartbeats 1000000

namespace QuizApp

/-- Authoring / loaded choice dict: keys `id`, `text`, `is_correct`. -/
structure Choice where
  id : String
  text : String
  is_correct : Bool
deriving DecidableEq, Repr

/-- Authoring / loaded question dict: keys `id`, `text`, `type`, `points`,
`choices` (main.py `generate_question_data`, `get_quiz_by_code`). -/
structure Question where
  id : String
  text : String
  type : String
  points : Nat
  choices : List Choice
deriving DecidableEq, Repr

/-- Authoring / loaded sub-quiz dict: keys `id`, `title`, `questions`. -/
structure SubQuiz where
  id : String
  title : String
  questions : List Question
deriving DecidableEq, Repr

/-- A dynamically typed Python value submitted as an answer: `None`, a
string (a single choice id or free text), or a list of choice ids. -/
inductive PyValue where
  | pynone : PyValue
  | pystr : String → PyValue
  | pylist : List String → PyValue
deriving DecidableEq, Repr

/-- Python `==` between a submitted value and an `Option`al choice id
(`None` or a string).  `None == None` is `True`; a list compares unequal
to both a string and `None`; distinct types compare unequal. -/
def pyEq : PyValue → Option String → Bool
  | PyValue.pystr s, some c => s == c
  | PyValue.pynone, Option.none => true
  | _, _ => false

/-- Python `sorted` on a list of strings (an insertion sort is a valid
model: on a linear order any sorting algorithm returns the same list). -/
def sortStrings (l : List String) : List String :=
  List.insertionSort (fun a b => a ≤ b) l

/-- The comprehension `[c['id'] for c in question['choices'] if c['is_correct']]`
(main.py line 80). -/
def correct_ids (question : Question) : List String :=
  (question.choices.filter (fun c => c.is_correct)).map (fun c => c.id)

/-- Shallow embedding of `score_answer` (main.py lines 66-91).
`SINGLE_CHOICE` compares the submitted value with the id of the first
choice flagged correct (`next(..., None)`); `MULTI_SELECT` compares the
two sorted id lists (Python `sorted` of a string iterates its characters,
and `sorted(None)` raises `TypeError`, modelled as `Except.error`);
every other type falls through to the initial `score = 0, correct = False`. -/
def score_answer (question : Question) (submitted_answer : PyValue) :
    Except String (Nat × Bool) :=
  if question.type = "SINGLE_CHOICE" then
    let correct_choice_id :=
      (question.choices.find? (fun c => c.is_correct)).map (fun c => c.id)
    if pyEq submitted_answer correct_choice_id then
      Except.ok (question.points, true)
    else
      Except.ok (0, false)
  else if question.type = "MULTI_SELECT" then
    match submitted_answer with
    | PyValue.pynone => Except.error "TypeError"
    | PyValue.pystr s =>
        if sortStrings (correct_ids question) =
            sortStrings (s.data.map (fun ch => String.singleton ch)) then
          Except.ok (question.points, true)
        else
          Except.ok (0, false)
    | PyValue.pylist l =>
        if sortStrings (correct_ids question) = sortStrings l then
          Except.ok (question.points, true)
        else
          Except.ok (0, false)
  else
    Except.ok (0, false)

/-- Python `str` of a submitted value, as stored in `Submitted_Answer`. -/
def pyStr : PyValue → String
  | PyValue.pynone => "None"
  | PyValue.pystr s => s
  | PyValue.pylist l =>
      "[" ++ String.intercalate ", " (l.map (fun s => "'" ++ s ++ "'")) ++ "]"

/-- The per-answer guard of `submit_results` (main.py lines 272-279):
`if submitted is None or submitted == []` the answer is scored 0 and
recorded as `"N/A"` without calling `score_answer`; otherwise
`score_answer` runs and the submitted value is stringified. -/
def answer_score (q : Question) (submitted : PyValue) :
    Except String (Nat × Bool × String) :=
  if submitted = PyValue.pynone ∨ submitted = PyValue.pylist [] then
    Except.ok (0, false, "N/A")
  else
    (score_answer q submitted).map (fun sc => (sc.1, sc.2, pyStr submitted))

/-- Demo MULTI_SELECT question (two of three choices correct). -/
def q_multi_demo : Question :=
  { id := "10", text := "pick", type := "MULTI_SELECT", points := 2,
    choices := [⟨"1", "A", true⟩, ⟨"2", "B", true⟩, ⟨"3", "C", false⟩] }

/-- Demo SINGLE_CHOICE question (second choice is the first correct one). -/
def q_single_demo : Question :=
  { id := "11", text := "pick one", type := "SINGLE_CHOICE", points := 3,
    choices := [⟨"1", "A", false⟩, ⟨"2", "B", true⟩, ⟨"3", "C", true⟩] }

/-- The first correct choice of `q_single_demo`. -/
def c_single_demo : Choice := ⟨"2", "B", true⟩

/-- Demo OPEN_TEXT question. -/
def q_open_demo : Question :=
  { id := "12", text := "explain", type := "OPEN_TEXT", points := 5,
    choices := [] }

/-- Demo SINGLE_CHOICE question none of whose choices is marked correct. -/
def q_nocorrect_single : Question :=
  { id := "13", text := "odd", type := "SINGLE_CHOICE", points := 4,
    choices := [⟨"1", "A", false⟩, ⟨"2", "B", false⟩] }

/-- Demo MULTI_SELECT question none of whose choices is marked correct. -/
def q_nocorrect_multi : Question :=
  { id := "14", text := "odd", type := "MULTI_SELECT", points := 4,
    choices := [⟨"1", "A", false⟩, ⟨"2", "B", false⟩] }

/-- Total question count over all sub-quizzes (main.py line 520). -/
def total_questions (sub_quizzes : List SubQuiz) : Nat :=
  (sub_quizzes.map (fun sq => sq.questions.length)).sum

/-- Questions completed at cursor `(sq_idx, q_idx)` (main.py line 521):
full question counts of the sub-quizzes before `sq_idx`, plus `q_idx`. -/
def questions_completed (sub_quizzes : List SubQuiz) (sq_idx q_idx : Nat) : Nat :=
  ((sub_quizzes.take sq_idx).map (fun sq => sq.questions.length)).sum + q_idx

/-- Placeholder sub-quiz used only as a `getD` default. -/
def defaultSubQuiz : SubQuiz := { id := "", title := "", questions := [] }

/-- All question positions of a quiz as `(subQuizIndex, questionIndex)`
pairs, in display order. -/
def question_positions (subs : List SubQuiz) : List (Nat × Nat) :=
  ((List.range subs.length).map (fun i =>
    (List.range ((subs.getD i defaultSubQuiz).questions.length)).map
      (fun j => (i, j)))).flatten

/-- Specification-side count: the number of question positions strictly
before the cursor in lexicographic order. -/
def questions_before (subs : List SubQuiz) (sq_idx q_idx : Nat) : Nat :=
  (question_positions subs).countP
    (fun p => decide (p.1 < sq_idx ∨ (p.1 = sq_idx ∧ p.2 < q_idx)))

/-- Demo quiz with 2 modules of 3 and 2 questions respectively. -/
def progress_demo_quiz : List SubQuiz :=
  [ { id := "1", title := "Module 1",
      questions := [q_single_demo, q_multi_demo, q_open_demo] },
    { id := "2", title := "Module 2",
      questions := [q_single_demo, q_open_demo] } ]

/-- The fixed creator identifier (main.py line 20). -/
def user_id : String := "streamlite_creator_session"

/-- The alphabet of `generate_access_code` (main.py line 41):
`string.ascii_uppercase + string.digits`. -/
def access_code_characters : List Char :=
  "ABCDEFGHIJKLMNOPQRSTUVWXYZ0123456789".data

/-- Shallow embedding of `generate_access_code` (main.py lines 39-42).
The stream `g` supplies the successive `random.choice` draws (as indices,
reduced modulo the alphabet size); the draws are independent of any
previously generated code and of the database. -/
def generate_access_code (g : Nat → Nat) (length : Nat := 6) : String :=
  String.mk ((List.range length).map
    (fun i => access_code_characters.getD (g i % access_code_characters.length) 'A'))

/-- Row of the `Quizzes` table. -/
structure QuizRow where
  QuizID : Nat
  CreatorUserID : String
  Title : String
  Access_Code : String
deriving DecidableEq, Repr

/-- Row of the `SubQuizzes` table. -/
structure SubQuizRow where
  SubQuizID : Nat
  QuizID : Nat
  Title : String
  Order_Index : Nat
deriving DecidableEq, Repr

/-- Row of the `Questions` table. -/
structure QuestionRow where
  QuestionID : Nat
  SubQuizID : Nat
  Question_Text : String
  Question_Type : String
  Points : Nat
  Order_Index : Nat
deriving DecidableEq, Repr

/-- Row of the `Choices` table; `Is_Correct` is stored as the integer
`1 if choice['is_correct'] else 0` (main.py line 221). -/
structure ChoiceRow where
  ChoiceID : Nat
  QuestionID : Nat
  Choice_Text : String
  Is_Correct : Nat
deriving DecidableEq, Repr

/-- Row of the `QuizTakers` table (`Completed_At` carries no logic and is
not modelled). -/
structure TakerRow where
  TakerID : Nat
  QuizID : Nat
  Taker_Name : String
  Total_Score : Nat
deriving DecidableEq, Repr

/-- Row of the `Answers` table. -/
structure AnswerRow where
  TakerID : Nat
  QuestionID : Nat
  Submitted_Answer : String
  Is_Correct : Nat
  Score_Achieved : Nat
deriving DecidableEq, Repr

/-- The MySQL database: one list per table, in insertion order, plus the
per-table auto-increment counters that `cursor.lastrowid` exposes. -/
structure DB where
  quizzes : List QuizRow
  subquizzes : List SubQuizRow
  questions : List QuestionRow
  choices : List ChoiceRow
  takers : List TakerRow
  answers : List AnswerRow
  nextQuiz : Nat
  nextSub : Nat
  nextQ : Nat
  nextC : Nat
  nextTaker : Nat
deriving DecidableEq, Repr

/-- A freshly created database (MySQL auto-increment starts at 1). -/
def emptyDB : DB := ⟨[], [], [], [], [], [], 1, 1, 1, 1, 1⟩

/-- Referential well-formedness: every foreign key stored in a child table
points below the parent table's auto-increment counter.  This holds for
every database reachable by the operations modelled here. -/
abbrev WF (db : DB) : Prop :=
  (∀ r ∈ db.subquizzes, r.QuizID < db.nextQuiz) ∧
  (∀ r ∈ db.questions, r.SubQuizID < db.nextSub) ∧
  (∀ r ∈ db.choices, r.QuestionID < db.nextQ)

/-- Choice rows inserted for one question (main.py lines 218-222):
`ChoiceID` auto-increments from `c0`. -/
def encQChoices (qid c0 : Nat) : List Choice → List ChoiceRow
  | [] => []
  | c :: cs =>
      ⟨c0, qid, c.text, if c.is_correct then 1 else 0⟩ :: encQChoices qid (c0 + 1) cs

/-- Number of Choice rows one question contributes (main.py line 218:
none for OPEN_TEXT). -/
def qChoiceCount (q : Question) : Nat :=
  if q.type ≠ "OPEN_TEXT" then q.choices.length else 0

/-- Question rows inserted for one sub-quiz (main.py lines 211-215):
`Order_Index` is the loop index, `QuestionID` auto-increments from `q0`. -/
def encQuestionsQ (sqid : Nat) (idx q0 : Nat) : List Question → List QuestionRow
  | [] => []
  | q :: qs =>
      ⟨q0, sqid, q.text, q.type, q.points, idx⟩ :: encQuestionsQ sqid (idx + 1) (q0 + 1) qs

/-- Choice rows inserted for the questions of one sub-quiz, in insertion
order; the Choice counter advances by `qChoiceCount` per question. -/
def encQuestionsC (q0 c0 : Nat) : List Question → List ChoiceRow
  | [] => []
  | q :: qs =>
      (if q.type ≠ "OPEN_TEXT" then encQChoices q0 c0 q.choices else []) ++
        encQuestionsC (q0 + 1) (c0 + qChoiceCount q) qs

/-- Total Choice rows contributed by a question list. -/
def questionsChoiceCount (qs : List Question) : Nat := (qs.map qChoiceCount).sum

/-- SubQuiz rows inserted by `save_quiz` (main.py lines 206-209). -/
def encSubsS (quizId : Nat) (idx s0 : Nat) : List SubQuiz → List SubQuizRow
  | [] => []
  | sq :: subs =>
      ⟨s0, quizId, sq.title, idx⟩ :: encSubsS quizId (idx + 1) (s0 + 1) subs

/-- Question rows inserted by `save_quiz` across all sub-quizzes, in
insertion order. -/
def encSubsQ (s0 q0 : Nat) : List SubQuiz → List QuestionRow
  | [] => []
  | sq :: subs =>
      encQuestionsQ s0 0 q0 sq.questions ++
        encSubsQ (s0 + 1) (q0 + sq.questions.length) subs

/-- Choice rows inserted by `save_quiz` across all sub-quizzes, in
insertion order. -/
def encSubsC (q0 c0 : Nat) : List SubQuiz → List ChoiceRow
  | [] => []
  | sq :: subs =>
      encQuestionsC q0 c0 sq.questions ++
        encSubsC (q0 + sq.questions.length) (c0 + questionsChoiceCount sq.questions) subs

/-- Total Question rows of a quiz tree. -/
def subsQuestionCount (subs : List SubQuiz) : Nat :=
  (subs.map (fun sq => sq.questions.length)).sum

/-- Total Choice rows of a quiz tree. -/
def subsChoiceCount (subs : List SubQuiz) : Nat :=
  (subs.map (fun sq => questionsChoiceCount sq.questions)).sum

/-- Shallow embedding of `save_quiz` (main.py lines 186-238): the state
after the transaction commits.  A fresh access code is generated with no
uniqueness check against existing rows; the quiz, sub-quiz, question and
choice rows are inserted with auto-increment ids, `Order_Index` taken from
the loop indices, and choices skipped for OPEN_TEXT questions.  No
validation of the tree is performed. -/
def save_quiz (db : DB) (g : Nat → Nat) (quiz_title : String)
    (sub_quizzes_data : List SubQuiz) : DB :=
  let access_code := generate_access_code g 6
  let quiz_id := db.nextQuiz
  { db with
    quizzes := db.quizzes ++ [⟨quiz_id, user_id, quiz_title, access_code⟩],
    subquizzes := db.subquizzes ++ encSubsS quiz_id 0 db.nextSub sub_quizzes_data,
    questions := db.questions ++ encSubsQ db.nextSub db.nextQ sub_quizzes_data,
    choices := db.choices ++ encSubsC db.nextQ db.nextC sub_quizzes_data,
    nextQuiz := quiz_id + 1,
    nextSub := db.nextSub + sub_quizzes_data.length,
    nextQ := db.nextQ + subsQuestionCount sub_quizzes_data,
    nextC := db.nextC + subsChoiceCount sub_quizzes_data }

/-- Number of `INSERT` statements `save_quiz` executes for a tree: one
Quiz row, one per sub-quiz, one per question, one per (non-OPEN_TEXT)
choice. -/
def save_insert_count (subs : List SubQuiz) : Nat :=
  1 + subs.length + subsQuestionCount subs + subsChoiceCount subs

/-- `save_quiz` run inside its transaction with a failure injected at
insert step `failAt` (0-based).  The `except` branch of main.py line 234
calls `conn.rollback()`, so a failure at any insert step leaves the
visible database unchanged; only a run that reaches `conn.commit()`
(main.py line 225) publishes the inserts. -/
def save_quiz_run (db : DB) (g : Nat → Nat) (quiz_title : String)
    (subs : List SubQuiz) (failAt : Option Nat) : DB :=
  match failAt with
  | Option.none => save_quiz db g quiz_title subs
  | some k =>
      if k < save_insert_count subs then db else save_quiz db g quiz_title subs

/-- The `Choices` query and row decoding of `get_quiz_by_code`
(main.py lines 156-168): no ORDER BY, so rows come back in insertion
order; `Is_Correct` is decoded with Python `bool`. -/
def load_choices (choiceRows : List ChoiceRow) (qid : Nat) : List Choice :=
  (choiceRows.filter (fun r => decide (r.QuestionID = qid))).map
    (fun r => { id := toString r.ChoiceID, text := r.Choice_Text,
                is_correct := decide (r.Is_Correct ≠ 0) })

/-- Question-dict reconstruction of `get_quiz_by_code`
(main.py lines 145-168): choices are fetched only for non-OPEN_TEXT
questions. -/
def load_question (choiceRows : List ChoiceRow) (r : QuestionRow) : Question :=
  { id := toString r.QuestionID, text := r.Question_Text, type := r.Question_Type,
    points := r.Points,
    choices :=
      if r.Question_Type ≠ "OPEN_TEXT" then load_choices choiceRows r.QuestionID else [] }

/-- Sub-quiz reconstruction of `get_quiz_by_code` (main.py lines 137-172):
questions are selected by `SubQuizID` and ordered by `Order_Index`. -/
def load_subquiz (questionRows : List QuestionRow) (choiceRows : List ChoiceRow)
    (r : SubQuizRow) : SubQuiz :=
  { id := toString r.SubQuizID, title := r.Title,
    questions := (List.insertionSort (fun a b => a.Order_Index ≤ b.Order_Index)
      (questionRows.filter (fun t => decide (t.SubQuizID = r.SubQuizID)))).map
      (load_question choiceRows) }

/-- The `quiz_data` dict returned by `get_quiz_by_code`; the nested
sub-quiz structure is carried directly (the JSON round trip of
main.py line 175 / line 456 is the identity on it). -/
structure QuizData where
  title : String
  creator_id : String
  access_code : String
  sub_quizzes : List SubQuiz
deriving DecidableEq, Repr

/-- Shallow embedding of `get_quiz_by_code` (main.py lines 112-184): the
first Quiz row matching the access code is taken; sub-quizzes are selected
by `QuizID` and ordered by `Order_Index`; the second component is
`quiz_doc_id = str(QuizID)`. -/
def get_quiz_by_code (db : DB) (access_code : String) : Option (QuizData × String) :=
  match db.quizzes.find? (fun q => decide (q.Access_Code = access_code)) with
  | Option.none => Option.none
  | some quiz_header =>
      some ({ title := quiz_header.Title, creator_id := quiz_header.CreatorUserID,
              access_code := access_code,
              sub_quizzes := (List.insertionSort (fun a b => a.Order_Index ≤ b.Order_Index)
                (db.subquizzes.filter (fun r => decide (r.QuizID = quiz_header.QuizID)))).map
                (load_subquiz db.questions db.choices) },
            toString quiz_header.QuizID)

/-- Id-erasing projection of a choice: text and correctness flag. -/
def choiceShape (c : Choice) : String × Bool := (c.text, c.is_correct)

/-- Id-erasing projection of a question: text, type, points, and the
choice shapes (dropped for OPEN_TEXT, which persistence omits). -/
def questionShape (q : Question) : String × String × Nat × List (String × Bool) :=
  (q.text, q.type, q.points,
   if q.type ≠ "OPEN_TEXT" then q.choices.map choiceShape else [])

/-- Id-erasing projection of a sub-quiz. -/
def subShape (sq : SubQuiz) : String × List (String × String × Nat × List (String × Bool)) :=
  (sq.title, sq.questions.map questionShape)

/-- Id-erasing projection of a whole quiz tree. -/
def treeShape (subs : List SubQuiz) :
    List (String × List (String × String × Nat × List (String × Bool))) :=
  subs.map subShape

/-- A constant random stream (a legitimate behaviour of `random.choice`). -/
def g0 : Nat → Nat := fun _ => 0

/-- Follows the spec's words (§3 invariants, §4.2 `validate()`): a
SINGLE_CHOICE or MULTI_SELECT question must own at least two choices and
at least one marked correct, and points must be positive; dense ordering
is inherent in the list representation.  The source has no counterpart:
`save_quiz` hands the tree to persistence without any validation. -/
def validate_spec (subs : List SubQuiz) : Bool :=
  subs.all (fun sq => sq.questions.all (fun q =>
    decide (1 ≤ q.points) &&
    (if q.type = "SINGLE_CHOICE" ∨ q.type = "MULTI_SELECT" then
      decide (2 ≤ q.choices.length) && q.choices.any (fun c => c.is_correct)
    else true)))

/-- An invariant-violating tree: its single SINGLE_CHOICE question has two
choices but none marked correct. -/
def invalid_demo_tree : List SubQuiz :=
  [{ id := "1", title := "Module 1", questions := [q_nocorrect_single] }]

/-- Python `int(s)` on the decimal digit strings that occur as ids here
(a non-numeric string raises `ValueError`). -/
def pyInt (s : String) : Except String Nat :=
  if s.data ≠ [] ∧ s.data.all (fun c => c.isDigit) then
    Except.ok (s.data.foldl (fun n c => n * 10 + (c.toNat - 48)) 0)
  else
    Except.error "ValueError"

/-- The `question_lookup` dict of `submit_results` (main.py lines
261-265), keyed by the session key `f"{subquiz['id']}_{question['id']}"`,
in insertion order. -/
def question_lookup (sub_quizzes : List SubQuiz) : List (String × Question) :=
  (sub_quizzes.map (fun sq => sq.questions.map
    (fun q => (sq.id ++ "_" ++ q.id, q)))).flatten

/-- Python dict `.get`: the value of the last binding of the key, `None`
if absent. -/
def dict_get (l : List (String × Question)) (k : String) : Option Question :=
  (l.reverse.find? (fun p => decide (p.1 = k))).map (fun p => p.2)

/-- One element of `answers_to_insert` (main.py lines 286-291). -/
structure AnswerInsert where
  question_id : Nat
  submitted : String
  is_correct : Nat
  score : Nat
deriving DecidableEq, Repr

/-- The answer-processing loop of `submit_results` (main.py lines
268-291): entries whose session key does not resolve are skipped
(`continue`); absent/empty submissions and `score_answer` results pass
through `answer_score`; `int(q_data['id'])` is parsed; one insert record
is built per processed answer and the running total accumulates.  A
Python exception anywhere propagates (`Except.error`). -/
def process_answers (lookup : List (String × Question)) :
    List (String × PyValue) → Except String (List AnswerInsert × Nat)
  | [] => Except.ok ([], 0)
  | (k, v) :: rest =>
    match dict_get lookup k with
    | Option.none => process_answers lookup rest
    | some q =>
      match answer_score q v with
      | Except.error e => Except.error e
      | Except.ok sc =>
        match pyInt q.id with
        | Except.error e => Except.error e
        | Except.ok qid =>
          match process_answers lookup rest with
          | Except.error e => Except.error e
          | Except.ok (tail, total) =>
            Except.ok (⟨qid, sc.2.2, if sc.2.1 then 1 else 0, sc.1⟩ :: tail,
              sc.1 + total)

/-- The `quiz_to_take` session state consumed by `submit_results`. -/
structure QuizTakeState where
  id : String
  sub_quizzes : List SubQuiz
  taker_name : String
  answers : List (String × PyValue)

/-- The rows `submit_results` inserts: the `QuizTakers` row (main.py
lines 301-303, whose `TakerID` is `lastrowid`) and one `Answers` row per
processed answer (main.py lines 306-309). -/
def submit_rows (db : DB) (st : QuizTakeState) :
    Except String (TakerRow × List AnswerRow) :=
  match pyInt st.id with
  | Except.error e => Except.error e
  | Except.ok quiz_id =>
    match process_answers (question_lookup st.sub_quizzes) st.answers with
    | Except.error e => Except.error e
    | Except.ok (inserts, total_score) =>
      Except.ok (⟨db.nextTaker, quiz_id, st.taker_name, total_score⟩,
        inserts.map (fun a =>
          ⟨db.nextTaker, a.question_id, a.submitted, a.is_correct, a.score⟩))

/-- Committing a recorded attempt: the `QuizTakers` row and its `Answers`
rows are appended and the taker auto-increment advances. -/
def record_attempt (db : DB) (trow : TakerRow) (arows : List AnswerRow) : DB :=
  { db with takers := db.takers ++ [trow], answers := db.answers ++ arows,
            nextTaker := db.nextTaker + 1 }

/-- Shallow embedding of `submit_results` (main.py lines 240-322) run
inside its transaction with a failure injected at insert step `failAt`
(0-based over the `1 + #answers` inserts).  Score preparation happens
before `conn.start_transaction()`; the `except` branch (main.py line 318)
calls `conn.rollback()`, so a failure at any insert step leaves the
visible database unchanged; only a run reaching `conn.commit()`
(main.py line 311) publishes the prepared rows. -/
def submit_results (db : DB) (st : QuizTakeState) (failAt : Option Nat) :
    Except String DB :=
  match submit_rows db st with
  | Except.error e => Except.error e
  | Except.ok (trow, arows) =>
    match failAt with
    | Option.none => Except.ok (record_attempt db trow arows)
    | some k =>
        if k < 1 + arows.length then Except.ok db
        else Except.ok (record_attempt db trow arows)

/-- Demo taker session: one SINGLE_CHOICE question answered correctly. -/
def submit_demo_state : QuizTakeState :=
  { id := "7",
    sub_quizzes :=
      [ { id := "3", title := "M",
          questions :=
            [ { id := "21", text := "t", type := "SINGLE_CHOICE", points := 2,
                choices := [⟨"31", "A", false⟩, ⟨"32", "B", true⟩] } ] } ],
    taker_name := "Alice",
    answers := [("3_21", PyValue.pystr "32")] }

end QuizApp

namespace QuizApp

theorem sortStrings_eq_iff {l1 l2 : List String} :
    sortStrings l1 = sortStrings l2 ↔ l1.Perm l2 := by
  unfold sortStrings
  constructor
  · intro h
    exact (List.perm_insertionSort _ l1).symm.trans
      (by rw [h]; exact List.perm_insertionSort _ l2)
  · intro h
    exact List.eq_of_perm_of_sorted
      ((List.perm_insertionSort _ l1).trans
        (h.trans (List.perm_insertionSort _ l2).symm))
      (List.sorted_insertionSort _ l1) (List.sorted_insertionSort _ l2)

theorem score_answer_multi (q : Question) (h : q.type = "MULTI_SELECT")
    (l : List String) :
    score_answer q (PyValue.pylist l) =
      Except.ok (if l.Perm (correct_ids q) then (q.points, true) else (0, false)) := by
  have hne : q.type ≠ "SINGLE_CHOICE" := by rw [h]; decide
  have hiff : (sortStrings (correct_ids q) = sortStrings l) ↔ l.Perm (correct_ids q) := by
    rw [sortStrings_eq_iff]
    exact ⟨fun hp => hp.symm, fun hp => hp.symm⟩
  simp only [score_answer, if_neg hne, if_pos h]
  rw [apply_ite Except.ok, if_congr hiff rfl rfl]

/-- C1: for a MULTI_SELECT question, `score_answer` is invariant under
reordering of the submitted list of choice ids, and it awards
`(question.points, true)` exactly when the submitted ids, as an unordered
collection, equal the collection of ids of choices with `is_correct = true`;
any mismatch yields `(0, false)` — no partial credit. -/
theorem score_multi_select_unordered (q : Question) (h : q.type = "MULTI_SELECT") :
    (∀ l1 l2 : List String, l1.Perm l2 →
        score_answer q (PyValue.pylist l1) = score_answer q (PyValue.pylist l2)) ∧
    (∀ l : List String,
        score_answer q (PyValue.pylist l) =
          Except.ok (if l.Perm (correct_ids q) then (q.points, true) else (0, false))) := by
  refine ⟨?_, score_answer_multi q h⟩
  intro l1 l2 hp
  rw [score_answer_multi q h l1, score_answer_multi q h l2]
  have hiff : l1.Perm (correct_ids q) ↔ l2.Perm (correct_ids q) :=
    ⟨fun hx => hp.symm.trans hx, fun hx => hp.trans hx⟩
  rw [if_congr hiff rfl rfl]

theorem score_multi_select_unordered_witness :
    q_multi_demo.type = "MULTI_SELECT" ∧
    score_answer q_multi_demo (PyValue.pylist ["2", "1"]) =
      Except.ok (if (["2", "1"] : List String).Perm (correct_ids q_multi_demo)
        then (q_multi_demo.points, true) else (0, false)) :=
  ⟨rfl, (score_multi_select_unordered q_multi_demo rfl).2 ["2", "1"]⟩

/-- C2: for a SINGLE_CHOICE question whose first correct choice (in storage
order) is `c`, `score_answer` awards `(question.points, true)` exactly when
the submitted value is the string `c.id`; any other value, including `None`,
yields `(0, false)`. -/
theorem score_single_choice_iff (q : Question) (c : Choice)
    (h : q.type = "SINGLE_CHOICE")
    (hc : q.choices.find? (fun x => x.is_correct) = some c) :
    ∀ v : PyValue, score_answer q v =
      Except.ok (if v = PyValue.pystr c.id then (q.points, true) else (0, false)) := by
  intro v
  simp only [score_answer, if_pos h, hc, Option.map_some]
  cases v with
  | pynone => simp [pyEq]
  | pystr s =>
      by_cases hs : s = c.id
      · simp [pyEq, hs]
      · simp [pyEq, hs]
  | pylist l => simp [pyEq]

theorem score_single_choice_iff_witness :
    q_single_demo.type = "SINGLE_CHOICE" ∧
    q_single_demo.choices.find? (fun x => x.is_correct) = some c_single_demo ∧
    score_answer q_single_demo (PyValue.pystr "2") =
      Except.ok (if PyValue.pystr "2" = PyValue.pystr c_single_demo.id
        then (q_single_demo.points, true) else (0, false)) :=
  ⟨rfl, rfl, score_single_choice_iff q_single_demo c_single_demo rfl rfl (PyValue.pystr "2")⟩

/-- C9: an OPEN_TEXT question is always scored `(0, false)` whatever was
submitted, and for a question of any type an absent (`None`) or empty
(`[]`) submission is scored `(0, false)` by the submission path
(`answer_score`) as a normal value, not as an error. -/
theorem score_open_text_and_empty_zero (q : Question) (h : q.type = "OPEN_TEXT") :
    (∀ v : PyValue, score_answer q v = Except.ok (0, false)) ∧
    (∀ (q2 : Question) (v : PyValue), v = PyValue.pynone ∨ v = PyValue.pylist [] →
        answer_score q2 v = Except.ok (0, false, "N/A")) := by
  constructor
  · intro v
    have h1 : q.type ≠ "SINGLE_CHOICE" := by rw [h]; decide
    have h2 : q.type ≠ "MULTI_SELECT" := by rw [h]; decide
    simp [score_answer, if_neg h1, if_neg h2]
  · intro q2 v hv
    simp only [answer_score, if_pos hv]

theorem score_open_text_and_empty_zero_witness :
    q_open_demo.type = "OPEN_TEXT" ∧
    score_answer q_open_demo (PyValue.pystr "free answer") = Except.ok (0, false) ∧
    answer_score q_single_demo PyValue.pynone = Except.ok (0, false, "N/A") :=
  ⟨rfl,
   (score_open_text_and_empty_zero q_open_demo rfl).1 (PyValue.pystr "free answer"),
   (score_open_text_and_empty_zero q_open_demo rfl).2 q_single_demo PyValue.pynone (Or.inl rfl)⟩

/-- C10: for a question none of whose choices is flagged correct,
`score_answer` awards full points to the empty submission: `None` for a
SINGLE_CHOICE question (`None == None`), the empty list for a MULTI_SELECT
question (both sorted id lists are empty). -/
theorem score_no_correct_choice_full_points (q : Question)
    (h : ∀ c ∈ q.choices, c.is_correct = false) :
    (q.type = "SINGLE_CHOICE" → score_answer q PyValue.pynone = Except.ok (q.points, true)) ∧
    (q.type = "MULTI_SELECT" → score_answer q (PyValue.pylist []) = Except.ok (q.points, true)) := by
  have hfind : q.choices.find? (fun x => x.is_correct) = Option.none := by
    apply List.find?_eq_none.mpr
    intro x hx
    simp [h x hx]
  have hfilter : q.choices.filter (fun c => c.is_correct) = [] := by
    apply List.filter_eq_nil_iff.mpr
    intro x hx
    simp [h x hx]
  constructor
  · intro ht
    simp [score_answer, if_pos ht, hfind, pyEq]
  · intro ht
    have hne : q.type ≠ "SINGLE_CHOICE" := by rw [ht]; decide
    simp [score_answer, if_neg hne, if_pos ht, correct_ids, hfilter, sortStrings]

theorem countP_ext {α : Type} (p q : α → Bool) (l : List α) (h : ∀ a, p a = q a) :
    l.countP p = l.countP q := by
  rw [funext h]

theorem countP_range_lt (q n : Nat) (h : q ≤ n) :
    (List.range n).countP (fun j => decide (j < q)) = q := by
  induction n with
  | zero =>
    have hq : q = 0 := Nat.le_zero.mp h
    simp [hq]
  | succ n ih =>
    rw [List.range_succ, List.countP_append]
    by_cases hq : q ≤ n
    · rw [ih hq]
      have hn : ¬ (n < q) := by omega
      simp [hn]
    · have hq2 : q = n + 1 := by omega
      subst hq2
      have h1 : (List.range n).countP (fun j => decide (j < n + 1)) = n := by
        calc (List.range n).countP (fun j => decide (j < n + 1))
            = (List.range n).length := by
              apply List.countP_eq_length.mpr
              intro a ha
              simp only [List.mem_range] at ha
              simp only [decide_eq_true_eq]
              omega
          _ = n := List.length_range n
      rw [h1]
      simp

theorem map_getD_range {α β : Type} (d : α) (f : α → β) :
    ∀ l : List α, (List.range l.length).map (fun i => f (l.getD i d)) = l.map f := by
  intro l
  induction l with
  | nil => simp
  | cons a l ih =>
    rw [List.length_cons, List.range_succ_eq_map]
    simp only [List.map_cons, List.map_map]
    refine congrArg₂ List.cons rfl ?_
    calc (List.range l.length).map ((fun i => f ((a :: l).getD i d)) ∘ Nat.succ)
        = (List.range l.length).map (fun i => f (l.getD i d)) := rfl
      _ = l.map f := ih

theorem questions_before_expand (subs : List SubQuiz) (sq q : Nat) :
    questions_before subs sq q =
      ((List.range subs.length).map (fun i =>
        (List.range ((subs.getD i defaultSubQuiz).questions.length)).countP
          (fun j => decide (i < sq ∨ (i = sq ∧ j < q))))).sum := by
  unfold questions_before question_positions
  rw [List.countP_flatten, List.map_map]
  refine congrArg List.sum (List.map_congr_left ?_)
  intro i _
  simp only [Function.comp_apply]
  rw [List.countP_map]
  rfl

theorem questions_before_eq :
    ∀ (subs : List SubQuiz) (sq_idx q_idx : Nat), sq_idx < subs.length →
      q_idx ≤ (subs.getD sq_idx defaultSubQuiz).questions.length →
      questions_before subs sq_idx q_idx = questions_completed subs sq_idx q_idx := by
  intro subs
  induction subs with
  | nil =>
    intro sq q h1 h2
    simp at h1
  | cons s rest ih =>
    intro sq q h1 h2
    rw [questions_before_expand, List.length_cons, List.range_succ_eq_map]
    simp only [List.map_cons, List.map_map, List.sum_cons]
    cases sq with
    | zero =>
      have hhead : (List.range ((s :: rest).getD 0 defaultSubQuiz).questions.length).countP
          (fun j => decide ((0:Nat) < 0 ∨ (0 = 0 ∧ j < q))) = q := by
        rw [countP_ext _ (fun j => decide (j < q)) _
          (fun j => decide_eq_decide.mpr (by omega))]
        exact countP_range_lt q _ h2
      rw [hhead]
      have htail : (List.range rest.length).map
          ((fun i => (List.range (((s :: rest).getD i defaultSubQuiz).questions.length)).countP
            (fun j => decide (i < 0 ∨ (i = 0 ∧ j < q)))) ∘ Nat.succ) =
          (List.range rest.length).map (fun _ => 0) := by
        refine List.map_congr_left ?_
        intro i _
        simp only [Function.comp_apply]
        rw [countP_ext _ (fun _ => false) _
          (fun j => by simp only [decide_eq_false_iff_not]; omega)]
        simp
      rw [htail]
      have hz : ((List.range rest.length).map (fun _ => (0:Nat))).sum = 0 := by
        apply List.sum_eq_zero
        intro x hx
        simp only [List.mem_map] at hx
        obtain ⟨_, _, hx⟩ := hx
        omega
      rw [hz]
      simp [questions_completed]
    | succ sq =>
      have hhead : (List.range ((s :: rest).getD 0 defaultSubQuiz).questions.length).countP
          (fun j => decide ((0:Nat) < sq + 1 ∨ (0 = sq + 1 ∧ j < q))) =
          s.questions.length := by
        have ha : (List.range ((s :: rest).getD 0 defaultSubQuiz).questions.length).countP
            (fun j => decide ((0:Nat) < sq + 1 ∨ (0 = sq + 1 ∧ j < q))) =
            (List.range ((s :: rest).getD 0 defaultSubQuiz).questions.length).length := by
          apply List.countP_eq_length.mpr
          intro a _
          simp only [decide_eq_true_eq]
          omega
        rw [ha, List.length_range]
        rfl
      rw [hhead]
      have htail : (List.range rest.length).map
          ((fun i => (List.range (((s :: rest).getD i defaultSubQuiz).questions.length)).countP
            (fun j => decide (i < sq + 1 ∨ (i = sq + 1 ∧ j < q)))) ∘ Nat.succ) =
          (List.range rest.length).map (fun i =>
            (List.range ((rest.getD i defaultSubQuiz).questions.length)).countP
              (fun j => decide (i < sq ∨ (i = sq ∧ j < q)))) := by
        refine List.map_congr_left ?_
        intro i _
        simp only [Function.comp_apply]
        exact countP_ext _ _ _ (fun j => decide_eq_decide.mpr (by omega))
      rw [htail, ← questions_before_expand,
        ih sq q (by simpa using h1) (by simpa using h2)]
      simp only [questions_completed, List.take_succ_cons, List.map_cons, List.sum_cons]
      omega

theorem total_questions_eq_positions (subs : List SubQuiz) :
    total_questions subs = (question_positions subs).length := by
  unfold total_questions question_positions
  rw [List.length_flatten, List.map_map]
  have h1 : (List.range subs.length).map
      (List.length ∘ fun i =>
        (List.range ((subs.getD i defaultSubQuiz).questions.length)).map (fun j => (i, j))) =
      (List.range subs.length).map (fun i => (subs.getD i defaultSubQuiz).questions.length) := by
    refine List.map_congr_left ?_
    intro i _
    simp
  rw [h1, map_getD_range defaultSubQuiz (fun sq => sq.questions.length) subs]

/-- C8: in the ACTIVE state, the reported progress numerator
`questions_completed` equals the number of question positions strictly
before the cursor (lexicographically), and the denominator
`total_questions` is the total number of question positions; in particular
the 2-module demo quiz with 3 and 2 questions reports 4 of 5 at cursor
`(1, 1)`. -/
theorem progress_fraction_correct (subs : List SubQuiz) (sq_idx q_idx : Nat)
    (h1 : sq_idx < subs.length)
    (h2 : q_idx ≤ (subs.getD sq_idx defaultSubQuiz).questions.length) :
    questions_completed subs sq_idx q_idx = questions_before subs sq_idx q_idx ∧
    total_questions subs = (question_positions subs).length ∧
    questions_completed progress_demo_quiz 1 1 = 4 ∧
    total_questions progress_demo_quiz = 5 :=
  ⟨(questions_before_eq subs sq_idx q_idx h1 h2).symm,
   total_questions_eq_positions subs, by decide, by decide⟩

theorem progress_fraction_correct_witness :
    1 < progress_demo_quiz.length ∧
    1 ≤ (progress_demo_quiz.getD 1 defaultSubQuiz).questions.length ∧
    (questions_completed progress_demo_quiz 1 1 = questions_before progress_demo_quiz 1 1 ∧
      total_questions progress_demo_quiz = (question_positions progress_demo_quiz).length ∧
      questions_completed progress_demo_quiz 1 1 = 4 ∧
      total_questions progress_demo_quiz = 5) :=
  ⟨by decide, by decide,
   progress_fraction_correct progress_demo_quiz 1 1 (by decide) (by decide)⟩

theorem encQChoices_mem (qid : Nat) :
    ∀ (cs : List Choice) (c0 : Nat) (r : ChoiceRow),
      r ∈ encQChoices qid c0 cs → r.QuestionID = qid := by
  intro cs
  induction cs with
  | nil => intro c0 r hr; simp [encQChoices] at hr
  | cons c cs ih =>
    intro c0 r hr
    simp only [encQChoices, List.mem_cons] at hr
    rcases hr with h | h
    · subst h; rfl
    · exact ih (c0 + 1) r h

theorem encQChoices_decode (qid : Nat) :
    ∀ (cs : List Choice) (c0 : Nat),
      (encQChoices qid c0 cs).map
        (fun r => choiceShape { id := toString r.ChoiceID, text := r.Choice_Text,
                                is_correct := decide (r.Is_Correct ≠ 0) }) =
      cs.map choiceShape := by
  intro cs
  induction cs with
  | nil => intro c0; simp [encQChoices]
  | cons c cs ih =>
    intro c0
    simp only [encQChoices, List.map_cons, ih]
    refine congrArg₂ List.cons ?_ rfl
    cases hc : c.is_correct <;> simp [choiceShape, hc]

theorem load_choices_enc (A B : List ChoiceRow) (qid c0 : Nat) (cs : List Choice)
    (hA : ∀ r ∈ A, r.QuestionID ≠ qid) (hB : ∀ r ∈ B, r.QuestionID ≠ qid) :
    (load_choices (A ++ (encQChoices qid c0 cs ++ B)) qid).map choiceShape =
      cs.map choiceShape := by
  unfold load_choices
  rw [List.filter_append, List.filter_append,
    List.filter_eq_nil_iff.mpr (fun r hr => by simp [hA r hr]),
    List.filter_eq_self.mpr (fun r hr => by simp [encQChoices_mem qid cs c0 r hr]),
    List.filter_eq_nil_iff.mpr (fun r hr => by simp [hB r hr])]
  simp only [List.nil_append, List.append_nil, List.map_map]
  exact encQChoices_decode qid cs c0

theorem encQuestionsC_mem :
    ∀ (qs : List Question) (q0 c0 : Nat) (r : ChoiceRow),
      r ∈ encQuestionsC q0 c0 qs →
        q0 ≤ r.QuestionID ∧ r.QuestionID < q0 + qs.length := by
  intro qs
  induction qs with
  | nil => intro q0 c0 r hr; simp [encQuestionsC] at hr
  | cons q qs ih =>
    intro q0 c0 r hr
    simp only [encQuestionsC, List.mem_append] at hr
    simp only [List.length_cons]
    rcases hr with h | h
    · have he : r.QuestionID = q0 := by
        by_cases ht : q.type ≠ "OPEN_TEXT"
        · rw [if_pos ht] at h; exact encQChoices_mem q0 q.choices c0 r h
        · rw [if_neg ht] at h; simp at h
      omega
    · have := ih (q0 + 1) (c0 + qChoiceCount q) r h
      omega

theorem encQuestionsQ_mem :
    ∀ (qs : List Question) (sqid idx q0 : Nat) (r : QuestionRow),
      r ∈ encQuestionsQ sqid idx q0 qs →
        r.SubQuizID = sqid ∧ idx ≤ r.Order_Index ∧ q0 ≤ r.QuestionID := by
  intro qs
  induction qs with
  | nil => intro sqid idx q0 r hr; simp [encQuestionsQ] at hr
  | cons q qs ih =>
    intro sqid idx q0 r hr
    simp only [encQuestionsQ, List.mem_cons] at hr
    rcases hr with h | h
    · subst h; exact ⟨rfl, Nat.le_refl _, Nat.le_refl _⟩
    · have := ih sqid (idx + 1) (q0 + 1) r h
      exact ⟨this.1, by omega, by omega⟩

theorem encQuestionsQ_sorted :
    ∀ (qs : List Question) (sqid idx q0 : Nat),
      List.Sorted (fun a b : QuestionRow => a.Order_Index ≤ b.Order_Index)
        (encQuestionsQ sqid idx q0 qs) := by
  intro qs
  induction qs with
  | nil => intro sqid idx q0; simp [encQuestionsQ]
  | cons q qs ih =>
    intro sqid idx q0
    simp only [encQuestionsQ]
    rw [List.sorted_cons]
    refine ⟨?_, ih sqid (idx + 1) (q0 + 1)⟩
    intro b hb
    have := (encQuestionsQ_mem qs sqid (idx + 1) (q0 + 1) b hb).2.1
    show idx ≤ b.Order_Index
    omega

theorem encSubsS_mem :
    ∀ (subs : List SubQuiz) (quizId idx s0 : Nat) (r : SubQuizRow),
      r ∈ encSubsS quizId idx s0 subs →
        r.QuizID = quizId ∧ idx ≤ r.Order_Index ∧ s0 ≤ r.SubQuizID := by
  intro subs
  induction subs with
  | nil => intro quizId idx s0 r hr; simp [encSubsS] at hr
  | cons sq subs ih =>
    intro quizId idx s0 r hr
    simp only [encSubsS, List.mem_cons] at hr
    rcases hr with h | h
    · subst h; exact ⟨rfl, Nat.le_refl _, Nat.le_refl _⟩
    · have := ih quizId (idx + 1) (s0 + 1) r h
      exact ⟨this.1, by omega, by omega⟩

theorem encSubsS_sorted :
    ∀ (subs : List SubQuiz) (quizId idx s0 : Nat),
      List.Sorted (fun a b : SubQuizRow => a.Order_Index ≤ b.Order_Index)
        (encSubsS quizId idx s0 subs) := by
  intro subs
  induction subs with
  | nil => intro quizId idx s0; simp [encSubsS]
  | cons sq subs ih =>
    intro quizId idx s0
    simp only [encSubsS]
    rw [List.sorted_cons]
    refine ⟨?_, ih quizId (idx + 1) (s0 + 1)⟩
    intro b hb
    have := (encSubsS_mem subs quizId (idx + 1) (s0 + 1) b hb).2.1
    show idx ≤ b.Order_Index
    omega

theorem encSubsQ_mem :
    ∀ (subs : List SubQuiz) (s0 q0 : Nat) (r : QuestionRow),
      r ∈ encSubsQ s0 q0 subs → s0 ≤ r.SubQuizID := by
  intro subs
  induction subs with
  | nil => intro s0 q0 r hr; simp [encSubsQ] at hr
  | cons sq subs ih =>
    intro s0 q0 r hr
    simp only [encSubsQ, List.mem_append] at hr
    rcases hr with h | h
    · have := (encQuestionsQ_mem sq.questions s0 0 q0 r h).1
      omega
    · have := ih (s0 + 1) (q0 + sq.questions.length) r h
      omega

theorem encSubsC_mem :
    ∀ (subs : List SubQuiz) (q0 c0 : Nat) (r : ChoiceRow),
      r ∈ encSubsC q0 c0 subs → q0 ≤ r.QuestionID := by
  intro subs
  induction subs with
  | nil => intro q0 c0 r hr; simp [encSubsC] at hr
  | cons sq subs ih =>
    intro q0 c0 r hr
    simp only [encSubsC, List.mem_append] at hr
    rcases hr with h | h
    · exact (encQuestionsC_mem sq.questions q0 c0 r h).1
    · have := ih (q0 + sq.questions.length) (c0 + questionsChoiceCount sq.questions) r h
      omega

theorem load_questions_enc :
    ∀ (qs : List Question) (sqid idx q0 c0 : Nat) (A B : List ChoiceRow),
      (∀ r ∈ A, r.QuestionID < q0) →
      (∀ r ∈ B, q0 + qs.length ≤ r.QuestionID) →
      (encQuestionsQ sqid idx q0 qs).map
        (fun qr => questionShape (load_question (A ++ (encQuestionsC q0 c0 qs ++ B)) qr)) =
      qs.map questionShape := by
  intro qs
  induction qs with
  | nil => intro sqid idx q0 c0 A B hA hB; simp [encQuestionsQ]
  | cons q qs ih =>
    intro sqid idx q0 c0 A B hA hB
    simp only [encQuestionsQ, encQuestionsC, List.map_cons]
    refine congrArg₂ List.cons ?_ ?_
    · -- head question decodes to the same shape
      by_cases ht : q.type = "OPEN_TEXT"
      · simp [load_question, questionShape, ht]
      · have hne : ((⟨q0, sqid, q.text, q.type, q.points, idx⟩ :
            QuestionRow).Question_Type ≠ "OPEN_TEXT") := ht
        simp only [load_question, questionShape, if_pos hne]
        refine congrArg₂ Prod.mk rfl (congrArg₂ Prod.mk rfl (congrArg₂ Prod.mk rfl ?_))
        have hassoc2 :
            A ++ (encQChoices q0 c0 q.choices ++
              encQuestionsC (q0 + 1) (c0 + qChoiceCount q) qs ++ B) =
            A ++ (encQChoices q0 c0 q.choices ++
              (encQuestionsC (q0 + 1) (c0 + qChoiceCount q) qs ++ B)) := by
          simp [List.append_assoc]
        rw [hassoc2]
        apply load_choices_enc
        · intro r hr
          have := hA r hr
          omega
        · intro r hr
          rcases List.mem_append.mp hr with h | h
          · have := (encQuestionsC_mem qs (q0 + 1) (c0 + qChoiceCount q) r h).1
            omega
          · have := hB r h
            simp only [List.length_cons] at this
            omega
    · -- tail
      have hassoc :
          A ++ ((if q.type ≠ "OPEN_TEXT" then encQChoices q0 c0 q.choices else []) ++
            encQuestionsC (q0 + 1) (c0 + qChoiceCount q) qs ++ B) =
          (A ++ (if q.type ≠ "OPEN_TEXT" then encQChoices q0 c0 q.choices else [])) ++
            (encQuestionsC (q0 + 1) (c0 + qChoiceCount q) qs ++ B) := by
        simp [List.append_assoc]
      rw [hassoc]
      apply ih sqid (idx + 1) (q0 + 1) (c0 + qChoiceCount q)
      · intro r hr
        rcases List.mem_append.mp hr with h | h
        · have := hA r h
          omega
        · have : r.QuestionID = q0 := by
            by_cases ht : q.type ≠ "OPEN_TEXT"
            · rw [if_pos ht] at h; exact encQChoices_mem q0 q.choices c0 r h
            · rw [if_neg ht] at h; simp at h
          omega
      · intro r hr
        have := hB r hr
        simp only [List.length_cons] at this
        omega

theorem load_subs_enc :
    ∀ (subs : List SubQuiz) (quizId idx s0 q0 c0 : Nat)
      (AQ BQ : List QuestionRow) (AC BC : List ChoiceRow),
      (∀ r ∈ AQ, r.SubQuizID < s0) →
      (∀ r ∈ BQ, s0 + subs.length ≤ r.SubQuizID) →
      (∀ r ∈ AC, r.QuestionID < q0) →
      (∀ r ∈ BC, q0 + subsQuestionCount subs ≤ r.QuestionID) →
      (encSubsS quizId idx s0 subs).map
        (fun sr => subShape (load_subquiz (AQ ++ (encSubsQ s0 q0 subs ++ BQ))
          (AC ++ (encSubsC q0 c0 subs ++ BC)) sr)) =
      subs.map subShape := by
  intro subs
  induction subs with
  | nil => intro quizId idx s0 q0 c0 AQ BQ AC BC hAQ hBQ hAC hBC; simp [encSubsS]
  | cons sq subs ih =>
    intro quizId idx s0 q0 c0 AQ BQ AC BC hAQ hBQ hAC hBC
    simp only [encSubsS, encSubsQ, encSubsC, List.map_cons]
    refine congrArg₂ List.cons ?_ ?_
    · -- head sub-quiz decodes to the same shape
      simp only [load_subquiz, subShape]
      refine congrArg₂ Prod.mk rfl ?_
      have hfilter :
          (AQ ++ (encQuestionsQ s0 0 q0 sq.questions ++
              encSubsQ (s0 + 1) (q0 + sq.questions.length) subs ++ BQ)).filter
            (fun t => decide (t.SubQuizID =
              (⟨s0, quizId, sq.title, idx⟩ : SubQuizRow).SubQuizID)) =
          encQuestionsQ s0 0 q0 sq.questions := by
        show (AQ ++ (encQuestionsQ s0 0 q0 sq.questions ++
            encSubsQ (s0 + 1) (q0 + sq.questions.length) subs ++ BQ)).filter
            (fun t => decide (t.SubQuizID = s0)) = _
        rw [List.filter_append, List.filter_append, List.filter_append,
          List.filter_eq_nil_iff.mpr (fun r hr => by
            have := hAQ r hr
            simp only [decide_eq_true_eq]
            omega),
          List.filter_eq_self.mpr (fun r hr => by
            simp [(encQuestionsQ_mem sq.questions s0 0 q0 r hr).1]),
          List.filter_eq_nil_iff.mpr (fun r hr => by
            have := encSubsQ_mem subs (s0 + 1) (q0 + sq.questions.length) r hr
            simp only [decide_eq_true_eq]
            omega),
          List.filter_eq_nil_iff.mpr (fun r hr => by
            have := hBQ r hr
            simp only [List.length_cons] at this
            simp only [decide_eq_true_eq]
            omega)]
        simp
      rw [hfilter,
        (encQuestionsQ_sorted sq.questions s0 0 q0).insertionSort_eq, List.map_map]
      have hassoc :
          AC ++ (encQuestionsC q0 c0 sq.questions ++
              encSubsC (q0 + sq.questions.length) (c0 + questionsChoiceCount sq.questions)
                subs ++ BC) =
          AC ++ (encQuestionsC q0 c0 sq.questions ++
              (encSubsC (q0 + sq.questions.length) (c0 + questionsChoiceCount sq.questions)
                subs ++ BC)) := by
        simp [List.append_assoc]
      rw [hassoc]
      apply load_questions_enc sq.questions s0 0 q0 c0 AC _ hAC
      intro r hr
      rcases List.mem_append.mp hr with h | h
      · exact encSubsC_mem subs (q0 + sq.questions.length)
          (c0 + questionsChoiceCount sq.questions) r h
      · have := hBC r h
        simp only [subsQuestionCount, List.map_cons, List.sum_cons] at this ⊢
        omega
    · -- tail sub-quizzes
      have hassocQ :
          AQ ++ (encQuestionsQ s0 0 q0 sq.questions ++
              encSubsQ (s0 + 1) (q0 + sq.questions.length) subs ++ BQ) =
          (AQ ++ encQuestionsQ s0 0 q0 sq.questions) ++
            (encSubsQ (s0 + 1) (q0 + sq.questions.length) subs ++ BQ) := by
        simp [List.append_assoc]
      have hassocC :
          AC ++ (encQuestionsC q0 c0 sq.questions ++
              encSubsC (q0 + sq.questions.length) (c0 + questionsChoiceCount sq.questions)
                subs ++ BC) =
          (AC ++ encQuestionsC q0 c0 sq.questions) ++
            (encSubsC (q0 + sq.questions.length) (c0 + questionsChoiceCount sq.questions)
              subs ++ BC) := by
        simp [List.append_assoc]
      rw [hassocQ, hassocC]
      apply ih quizId (idx + 1) (s0 + 1) (q0 + sq.questions.length)
        (c0 + questionsChoiceCount sq.questions)
      · intro r hr
        rcases List.mem_append.mp hr with h | h
        · have := hAQ r h
          omega
        · have := (encQuestionsQ_mem sq.questions s0 0 q0 r h).1
          omega
      · intro r hr
        have := hBQ r hr
        simp only [List.length_cons] at this
        omega
      · intro r hr
        rcases List.mem_append.mp hr with h | h
        · have := hAC r h
          omega
        · have := (encQuestionsC_mem sq.questions q0 c0 r h).2
          omega
      · intro r hr
        have := hBC r hr
        simp only [subsQuestionCount, List.map_cons, List.sum_cons] at this ⊢
        omega

/-- C3: saving an authored quiz tree and loading it back through the
returned access code reconstructs an equal tree — same quiz title, same
order of sub-quizzes, questions and choices, same titles, texts, types,
points and correctness flags — modulo the persistence-assigned ids, with
choices omitted for OPEN_TEXT questions. -/
theorem save_load_round_trip (db : DB) (g : Nat → Nat) (quiz_title : String)
    (subs : List SubQuiz) (hwf : WF db)
    (hfresh : ∀ r ∈ db.quizzes, r.Access_Code ≠ generate_access_code g 6) :
    ∃ qd : QuizData,
      get_quiz_by_code (save_quiz db g quiz_title subs) (generate_access_code g 6) =
        some (qd, toString db.nextQuiz) ∧
      qd.title = quiz_title ∧ qd.creator_id = user_id ∧
      qd.access_code = generate_access_code g 6 ∧
      treeShape qd.sub_quizzes = treeShape subs := by
  obtain ⟨hwf1, hwf2, hwf3⟩ := hwf
  have hfind : (save_quiz db g quiz_title subs).quizzes.find?
      (fun q => decide (q.Access_Code = generate_access_code g 6)) =
      some ⟨db.nextQuiz, user_id, quiz_title, generate_access_code g 6⟩ := by
    show (db.quizzes ++
        [(⟨db.nextQuiz, user_id, quiz_title, generate_access_code g 6⟩ : QuizRow)]).find?
        (fun q => decide (q.Access_Code = generate_access_code g 6)) =
      some (⟨db.nextQuiz, user_id, quiz_title, generate_access_code g 6⟩ : QuizRow)
    rw [List.find?_append,
      List.find?_eq_none.mpr (fun r hr => by simp [hfresh r hr])]
    simp [List.find?]
  unfold get_quiz_by_code
  rw [hfind]
  refine ⟨_, rfl, rfl, rfl, rfl, ?_⟩
  show treeShape ((List.insertionSort (fun a b => a.Order_Index ≤ b.Order_Index)
      ((db.subquizzes ++ encSubsS db.nextQuiz 0 db.nextSub subs).filter
        (fun r => decide (r.QuizID = db.nextQuiz)))).map
      (load_subquiz (db.questions ++ encSubsQ db.nextSub db.nextQ subs)
        (db.choices ++ encSubsC db.nextQ db.nextC subs))) = treeShape subs
  have hfilter : (db.subquizzes ++ encSubsS db.nextQuiz 0 db.nextSub subs).filter
      (fun r => decide (r.QuizID = db.nextQuiz)) =
      encSubsS db.nextQuiz 0 db.nextSub subs := by
    rw [List.filter_append,
      List.filter_eq_nil_iff.mpr (fun r hr => by
        have := hwf1 r hr
        simp only [decide_eq_true_eq]
        omega),
      List.filter_eq_self.mpr (fun r hr => by
        simp [(encSubsS_mem subs db.nextQuiz 0 db.nextSub r hr).1])]
    simp
  rw [hfilter, (encSubsS_sorted subs db.nextQuiz 0 db.nextSub).insertionSort_eq]
  unfold treeShape
  rw [List.map_map]
  have hQ : db.questions ++ encSubsQ db.nextSub db.nextQ subs =
      db.questions ++ (encSubsQ db.nextSub db.nextQ subs ++ []) := by simp
  have hC : db.choices ++ encSubsC db.nextQ db.nextC subs =
      db.choices ++ (encSubsC db.nextQ db.nextC subs ++ []) := by simp
  rw [hQ, hC]
  have := load_subs_enc subs db.nextQuiz 0 db.nextSub db.nextQ db.nextC
    db.questions [] db.choices []
    (fun r hr => hwf2 r hr)
    (fun r hr => by simp at hr)
    (fun r hr => hwf3 r hr)
    (fun r hr => by simp at hr)
  exact this

theorem save_load_round_trip_witness :
    WF emptyDB ∧
    (∀ r ∈ emptyDB.quizzes, r.Access_Code ≠ generate_access_code g0 6) ∧
    (∃ qd : QuizData,
      get_quiz_by_code (save_quiz emptyDB g0 "Demo Quiz" progress_demo_quiz)
          (generate_access_code g0 6) = some (qd, toString emptyDB.nextQuiz) ∧
      qd.title = "Demo Quiz" ∧ qd.creator_id = user_id ∧
      qd.access_code = generate_access_code g0 6 ∧
      treeShape qd.sub_quizzes = treeShape progress_demo_quiz) := by
  have h1 : WF emptyDB := by
    refine ⟨?_, ?_, ?_⟩ <;> simp [emptyDB]
  have h2 : ∀ r ∈ emptyDB.quizzes, r.Access_Code ≠ generate_access_code g0 6 := by
    simp [emptyDB]
  exact ⟨h1, h2, save_load_round_trip emptyDB g0 "Demo Quiz" progress_demo_quiz h1 h2⟩

/-- C4: `save_quiz` is atomic: a failure injected at any insert step rolls
the transaction back, leaving the database exactly as it was — a
subsequent `get_quiz_by_code` on the attempted code finds nothing, and no
row carrying the attempted quiz's code exists. -/
theorem save_quiz_atomic_rollback (db : DB) (g : Nat → Nat) (quiz_title : String)
    (subs : List SubQuiz) (k : Nat)
    (hk : k < save_insert_count subs)
    (hfresh : ∀ r ∈ db.quizzes, r.Access_Code ≠ generate_access_code g 6) :
    save_quiz_run db g quiz_title subs (some k) = db ∧
    get_quiz_by_code (save_quiz_run db g quiz_title subs (some k))
      (generate_access_code g 6) = Option.none ∧
    db.quizzes.filter (fun r => decide (r.Access_Code = generate_access_code g 6)) = [] := by
  have h1 : save_quiz_run db g quiz_title subs (some k) = db := by
    simp [save_quiz_run, if_pos hk]
  refine ⟨h1, ?_, ?_⟩
  · rw [h1]
    unfold get_quiz_by_code
    rw [List.find?_eq_none.mpr (fun r hr => by simp [hfresh r hr])]
  · exact List.filter_eq_nil_iff.mpr (fun r hr => by simp [hfresh r hr])

theorem save_quiz_atomic_rollback_witness :
    2 < save_insert_count progress_demo_quiz ∧
    (∀ r ∈ emptyDB.quizzes, r.Access_Code ≠ generate_access_code g0 6) ∧
    (save_quiz_run emptyDB g0 "Demo Quiz" progress_demo_quiz (some 2) = emptyDB ∧
     get_quiz_by_code (save_quiz_run emptyDB g0 "Demo Quiz" progress_demo_quiz (some 2))
       (generate_access_code g0 6) = Option.none ∧
     emptyDB.quizzes.filter
       (fun r => decide (r.Access_Code = generate_access_code g0 6)) = []) := by
  have hk : 2 < save_insert_count progress_demo_quiz := by decide
  have h2 : ∀ r ∈ emptyDB.quizzes, r.Access_Code ≠ generate_access_code g0 6 := by
    simp [emptyDB]
  exact ⟨hk, h2,
    save_quiz_atomic_rollback emptyDB g0 "Demo Quiz" progress_demo_quiz 2 hk h2⟩

/-- C6 counterexample: the generator never checks existing codes — with a
random stream that repeats its draws (a possible behaviour of
`random.choice`), two consecutive saves persist the very same code
"AAAAAA" twice, so codes generated across calls are not unique and a
collision is stored rather than re-rolled. -/
theorem access_code_uniqueness_counterexample :
    generate_access_code g0 6 = "AAAAAA" ∧
    ((save_quiz (save_quiz emptyDB g0 "Quiz one" []) g0 "Quiz two" []).quizzes.map
      (fun r => r.Access_Code)) = ["AAAAAA", "AAAAAA"] ∧
    ¬ ((save_quiz (save_quiz emptyDB g0 "Quiz one" []) g0 "Quiz two" []).quizzes.map
      (fun r => r.Access_Code)).Nodup := by
  refine ⟨?_, ?_, ?_⟩ <;> decide

/-- C6 (amended): every generated access code is exactly 6 characters,
each drawn from the uppercase letters and digits; but uniqueness is not
guaranteed — the code is generated independently of the database and
persisted without any collision check or retry. -/
theorem access_code_length_charset (g : Nat → Nat) :
    (generate_access_code g 6).length = 6 ∧
    (∀ c ∈ (generate_access_code g 6).data, c ∈ access_code_characters ∧
      (c.isUpper ∨ c.isDigit)) ∧
    (save_quiz emptyDB g "T" []).quizzes.map (fun r => r.Access_Code) =
      [generate_access_code g 6] := by
  refine ⟨?_, ?_, rfl⟩
  · show (String.mk ((List.range 6).map
      (fun i => access_code_characters.getD (g i % access_code_characters.length) 'A'))).length = 6
    simp [String.length]
  · intro c hc
    have hmem : c ∈ (List.range 6).map
        (fun i => access_code_characters.getD (g i % access_code_characters.length) 'A') := hc
    obtain ⟨i, _, hi⟩ := List.mem_map.mp hmem
    have hlen : (g i % access_code_characters.length) < access_code_characters.length := by
      apply Nat.mod_lt
      decide
    have hcmem : c ∈ access_code_characters := by
      rw [← hi, List.getD_eq_getElem access_code_characters 'A' hlen]
      exact List.getElem_mem hlen
    refine ⟨hcmem, ?_⟩
    have hall : ∀ x ∈ access_code_characters, x.isUpper ∨ x.isDigit := by decide
    exact hall c hcmem

/-- C7 counterexample: a tree violating the §3 invariants (a SINGLE_CHOICE
question with no choice marked correct) fails spec-side validation, yet
`save_quiz` persists every one of its rows — the save is not refused. -/
theorem validation_refusal_counterexample :
    validate_spec invalid_demo_tree = false ∧
    (save_quiz emptyDB g0 "Bad Quiz" invalid_demo_tree).quizzes.length = 1 ∧
    (save_quiz emptyDB g0 "Bad Quiz" invalid_demo_tree).subquizzes.length = 1 ∧
    (save_quiz emptyDB g0 "Bad Quiz" invalid_demo_tree).questions.length = 1 ∧
    (save_quiz emptyDB g0 "Bad Quiz" invalid_demo_tree).choices.length = 2 := by
  refine ⟨?_, ?_, ?_, ?_, ?_⟩ <;> decide

theorem encSubsS_length :
    ∀ (subs : List SubQuiz) (quizId idx s0 : Nat),
      (encSubsS quizId idx s0 subs).length = subs.length := by
  intro subs
  induction subs with
  | nil => intro quizId idx s0; simp [encSubsS]
  | cons sq subs ih =>
    intro quizId idx s0
    simp [encSubsS, ih quizId (idx + 1) (s0 + 1)]

/-- C7 (amended): `save_quiz` performs no validation at all: even a tree
that fails the spec-side `validate_spec` is persisted in full (the quiz
row is inserted and one SubQuiz row per authored sub-quiz), with no
refusal and no enumerated reasons. -/
theorem save_quiz_never_refuses (db : DB) (g : Nat → Nat) (quiz_title : String)
    (subs : List SubQuiz) (_hbad : validate_spec subs = false) :
    (save_quiz db g quiz_title subs).quizzes =
      db.quizzes ++ [⟨db.nextQuiz, user_id, quiz_title, generate_access_code g 6⟩] ∧
    (save_quiz db g quiz_title subs).subquizzes.length =
      db.subquizzes.length + subs.length := by
  constructor
  · rfl
  · show (db.subquizzes ++ encSubsS db.nextQuiz 0 db.nextSub subs).length = _
    rw [List.length_append, encSubsS_length]

theorem save_quiz_never_refuses_witness :
    validate_spec invalid_demo_tree = false ∧
    ((save_quiz emptyDB g0 "Bad Quiz" invalid_demo_tree).quizzes =
      emptyDB.quizzes ++
        [⟨emptyDB.nextQuiz, user_id, "Bad Quiz", generate_access_code g0 6⟩] ∧
     (save_quiz emptyDB g0 "Bad Quiz" invalid_demo_tree).subquizzes.length =
      emptyDB.subquizzes.length + invalid_demo_tree.length) :=
  ⟨by decide,
   save_quiz_never_refuses emptyDB g0 "Bad Quiz" invalid_demo_tree (by decide)⟩

theorem process_answers_length (lookup : List (String × Question)) :
    ∀ (ans : List (String × PyValue)) (rows : List AnswerInsert) (total : Nat),
      process_answers lookup ans = Except.ok (rows, total) →
      rows.length = ans.countP (fun p => (dict_get lookup p.1).isSome) := by
  intro ans
  induction ans with
  | nil =>
    intro rows total h
    simp only [process_answers, Except.ok.injEq, Prod.mk.injEq] at h
    rw [← h.1]
    simp
  | cons a rest ih =>
    intro rows total h
    obtain ⟨k, v⟩ := a
    simp only [process_answers] at h
    rw [List.countP_cons]
    split at h
    · rename_i hnone
      rw [hnone]
      simp only [Option.isSome_none]
      rw [ih rows total h]
      simp
    · rename_i q hsome
      split at h
      · simp at h
      · rename_i sc hsc
        split at h
        · simp at h
        · rename_i qid hqid
          split at h
          · simp at h
          · rename_i tail ttotal hrest
            simp only [Except.ok.injEq, Prod.mk.injEq] at h
            rw [← h.1]
            rw [hsome]
            simp only [List.length_cons, Option.isSome_some]
            rw [ih tail ttotal hrest]
            simp

/-- C5: `recordAttempt` (the transaction of `submit_results`) is atomic:
on a completed run it appends exactly one QuizTakers row and one Answers
row per scored answer entry (entries whose session key resolves to a
question) in a single commit, while a failure injected at any of the
`1 + #answers` insert steps rolls the whole attempt back, leaving the
QuizTakers and Answers tables untouched. -/
theorem submit_results_atomic (db : DB) (st : QuizTakeState)
    (qid : Nat) (ins : List AnswerInsert) (total : Nat)
    (hq : pyInt st.id = Except.ok qid)
    (hp : process_answers (question_lookup st.sub_quizzes) st.answers =
      Except.ok (ins, total)) :
    submit_results db st Option.none = Except.ok
      { db with takers := db.takers ++ [⟨db.nextTaker, qid, st.taker_name, total⟩],
                answers := db.answers ++ ins.map (fun a =>
                  ⟨db.nextTaker, a.question_id, a.submitted, a.is_correct, a.score⟩),
                nextTaker := db.nextTaker + 1 } ∧
    ins.length = st.answers.countP
      (fun p => (dict_get (question_lookup st.sub_quizzes) p.1).isSome) ∧
    (∀ k, k < 1 + ins.length → submit_results db st (some k) = Except.ok db) := by
  have hrows : submit_rows db st = Except.ok
      (⟨db.nextTaker, qid, st.taker_name, total⟩,
       ins.map (fun a =>
         ⟨db.nextTaker, a.question_id, a.submitted, a.is_correct, a.score⟩)) := by
    simp only [submit_rows, hq, hp]
  refine ⟨?_, process_answers_length _ _ _ _ hp, ?_⟩
  · simp only [submit_results, hrows, record_attempt]
  · intro k hk
    simp only [submit_results, hrows]
    rw [List.length_map, if_pos hk]

theorem submit_results_atomic_witness :
    pyInt submit_demo_state.id = Except.ok 7 ∧
    process_answers (question_lookup submit_demo_state.sub_quizzes)
      submit_demo_state.answers = Except.ok ([⟨21, "32", 1, 2⟩], 2) ∧
    (submit_results emptyDB submit_demo_state Option.none = Except.ok
      { emptyDB with
        takers := emptyDB.takers ++
          [⟨emptyDB.nextTaker, 7, submit_demo_state.taker_name, 2⟩],
        answers := emptyDB.answers ++
          ([(⟨21, "32", 1, 2⟩ : AnswerInsert)]).map (fun a =>
            ⟨emptyDB.nextTaker, a.question_id, a.submitted, a.is_correct, a.score⟩),
        nextTaker := emptyDB.nextTaker + 1 } ∧
    ([(⟨21, "32", 1, 2⟩ : AnswerInsert)]).length = submit_demo_state.answers.countP
      (fun p => (dict_get (question_lookup submit_demo_state.sub_quizzes) p.1).isSome) ∧
    (∀ k, k < 1 + ([(⟨21, "32", 1, 2⟩ : AnswerInsert)]).length →
      submit_results emptyDB submit_demo_state (some k) = Except.ok emptyDB)) := by
  have h1 : pyInt submit_demo_state.id = Except.ok 7 := rfl
  have h2 : process_answers (question_lookup submit_demo_state.sub_quizzes)
      submit_demo_state.answers = Except.ok ([⟨21, "32", 1, 2⟩], 2) := rfl
  exact ⟨h1, h2,
    submit_results_atomic emptyDB submit_demo_state 7 [⟨21, "32", 1, 2⟩] 2 h1 h2⟩

theorem score_no_correct_choice_full_points_witness :
    (∀ c ∈ q_nocorrect_single.choices, c.is_correct = false) ∧
    (∀ c ∈ q_nocorrect_multi.choices, c.is_correct = false) ∧
    score_answer q_nocorrect_single PyValue.pynone =
      Except.ok (q_nocorrect_single.points, true) ∧
    score_answer q_nocorrect_multi (PyValue.pylist []) =
      Except.ok (q_nocorrect_multi.points, true) :=
  ⟨by decide, by decide,
   (score_no_correct_choice_full_points q_nocorrect_single (by decide)).1 rfl,
   (score_no_correct_choice_full_points q_nocorrect_multi (by decide)).2 rfl⟩

end QuizApp
